import Mathlib

/-!
Verification of the memchat mentra-bridge session manager.

Shallow embedding of the bridge code: `TokenStore`, `MemchatClient`
(token refresh, chat-stream retry, SSE frame parsing), `ChatPipeline`
(turn queueing and event handling), `VisionPipeline` (reconnect
backoff) and `PairingManager` (code redemption). Timestamps are `Nat`
milliseconds; network outcomes (HTTP statuses, refresh responses,
login responses) are explicit inputs; the Redis store is an explicit
state threaded through each operation.
-/

namespace Memchat

/-- The stored credential record, mirroring `UserMapping` in the bridge
(access token, refresh token, absolute expiry in ms, optional
conversation id). -/
structure UserMapping where
  memchatAccessToken : String
  memchatRefreshToken : String
  accessTokenExpiresAt : Nat
  conversationId : Option String
deriving Repr, DecidableEq

/-- A pairing ticket stored under a code, mirroring `PairingRequest`. -/
structure PairingRequest where
  mentraUserId : String
  createdAt : Nat
deriving Repr, DecidableEq

/-- `const TOKEN_REFRESH_BUFFER_MS = 5 * 60 * 1000` in MemchatClient. -/
def TOKEN_REFRESH_BUFFER_MS : Nat := 5 * 60 * 1000

/-- Access tokens are stamped to expire 60 minutes after issuance
(`Date.now() + 60 * 60 * 1000`). -/
def ACCESS_TOKEN_LIFETIME_MS : Nat := 60 * 60 * 1000

/-- Errors thrown by the credential paths of `MemchatClient`. -/
inductive AuthError where
  /-- `"User not paired — no mapping found"` -/
  | notPaired : AuthError
  /-- `"Refresh token expired — user must re-pair"` (401 from refresh) -/
  | refreshTokenDead : AuthError
  /-- `"Token refresh failed: ..."` with the HTTP status -/
  | refreshHttp (status : Nat) : AuthError
deriving Repr, DecidableEq

/-- The backend's response to `POST /api/auth/refresh`, abstracted:
a fresh token pair, a 401 (dead refresh token), or another non-2xx
status. -/
inductive RefreshOutcome where
  | ok (accessToken refreshToken : String) : RefreshOutcome
  | dead : RefreshOutcome
  | httpError (status : Nat) : RefreshOutcome
deriving Repr, DecidableEq

/-- `MemchatClient.refreshAccessToken`, as a function of the current
time, the stored mapping and the backend outcome. Returns the thrown
error or the new access token, together with the store afterwards:
on a 401 the mapping is removed (`removeUserMapping`) before throwing;
on success the new pair overwrites the old with a fresh 60-minute
expiry, keeping `conversationId`. -/
def refreshAccessToken (now : Nat) (store : Option UserMapping)
    (o : RefreshOutcome) : Except AuthError String × Option UserMapping :=
  match store with
  | none => (.error .notPaired, none)
  | some mapping =>
    match o with
    | .dead => (.error .refreshTokenDead, none)
    | .httpError s => (.error (.refreshHttp s), some mapping)
    | .ok access refreshTok =>
        (.ok access,
          some { memchatAccessToken := access
                 memchatRefreshToken := refreshTok
                 accessTokenExpiresAt := now + ACCESS_TOKEN_LIFETIME_MS
                 conversationId := mapping.conversationId })

/-- Result of `MemchatClient.getAccessToken`: the returned token or
thrown error, the store afterwards, and how many refresh attempts were
performed. -/
structure TokenResult where
  result : Except AuthError String
  store : Option UserMapping
  refreshes : Nat
deriving Repr

/-- `MemchatClient.getAccessToken`: returns the cached token when
`Date.now() < mapping.accessTokenExpiresAt - TOKEN_REFRESH_BUFFER_MS`,
otherwise delegates to `refreshAccessToken` (exactly one refresh
attempt). Subtraction is truncated, which agrees with the JS
comparison for all nonnegative times. -/
def getAccessToken (now : Nat) (store : Option UserMapping)
    (o : RefreshOutcome) : TokenResult :=
  match store with
  | none => { result := .error .notPaired, store := none, refreshes := 0 }
  | some mapping =>
    if now < mapping.accessTokenExpiresAt - TOKEN_REFRESH_BUFFER_MS then
      { result := .ok mapping.memchatAccessToken
        store := some mapping
        refreshes := 0 }
    else
      let (r, s) := refreshAccessToken now (some mapping) o
      { result := r, store := s, refreshes := 1 }

end Memchat

namespace Memchat

/-- C1: `getAccessToken` returns the cached access token, with no
refresh, exactly when the current time is more than the 5-minute
safety margin before the recorded expiry; otherwise it performs
exactly one refresh attempt. In particular it never returns a token
whose expiry minus the margin has passed without exactly one
refresh. -/
theorem c1_getAccessToken_margin (now : Nat) (m : UserMapping)
    (o : RefreshOutcome) :
    ((getAccessToken now (some m) o).refreshes = 0 ↔
      now + TOKEN_REFRESH_BUFFER_MS < m.accessTokenExpiresAt) ∧
    ((getAccessToken now (some m) o).refreshes = 0 →
      (getAccessToken now (some m) o).result = .ok m.memchatAccessToken) ∧
    (¬ now + TOKEN_REFRESH_BUFFER_MS < m.accessTokenExpiresAt →
      (getAccessToken now (some m) o).refreshes = 1) := by
  have hiff : (now < m.accessTokenExpiresAt - TOKEN_REFRESH_BUFFER_MS) ↔
      (now + TOKEN_REFRESH_BUFFER_MS < m.accessTokenExpiresAt) := by
    omega
  by_cases h : now < m.accessTokenExpiresAt - TOKEN_REFRESH_BUFFER_MS
  · refine ⟨?_, ?_, ?_⟩ <;> simp [getAccessToken, h, hiff.mp h]
  · refine ⟨?_, ?_, ?_⟩ <;>
      simp [getAccessToken, h, refreshAccessToken, hiff.not.mp h]

/-- `resp.ok` in fetch: the status is in the 2xx range. -/
def httpOk (status : Nat) : Bool := 200 ≤ status && status < 300

/-- How a `chatStream` call ends, after the initial fetch status is
known. -/
inductive ChatStreamResult where
  /-- the SSE stream is handed to `parseSSEStream`; the flag records
  whether it came from the retried fetch -/
  | stream (usedRetry : Bool) : ChatStreamResult
  /-- `"Chat stream failed: ..."` on a non-401, non-2xx first fetch -/
  | chatError (status : Nat) : ChatStreamResult
  /-- `"Chat stream failed after refresh: ..."` on a non-2xx retry -/
  | retryError (status : Nat) : ChatStreamResult
  /-- an error propagated out of `refreshAccessToken` -/
  | authError (e : AuthError) : ChatStreamResult
deriving Repr, DecidableEq

/-- Trace of one `chatStream` call: its result plus how many refresh
attempts and how many retried fetches were performed after the initial
fetch. -/
structure ChatStreamTrace where
  result : ChatStreamResult
  refreshes : Nat
  retries : Nat
deriving Repr, DecidableEq

/-- The retry logic of `MemchatClient.chatStream` after the initial
authenticated fetch returned status `first`: a 401 performs one
`refreshAccessToken` (whose error, if any, propagates with no retry)
and one retried fetch with the new token, whose status `retry` is
fatal unless 2xx; any other non-2xx first status is fatal; otherwise
the response stream is parsed. -/
def chatStreamFlow (now : Nat) (store : Option UserMapping)
    (o : RefreshOutcome) (first retry : Nat) : ChatStreamTrace :=
  if first = 401 then
    match refreshAccessToken now store o with
    | (.error e, _) => { result := .authError e, refreshes := 1, retries := 0 }
    | (.ok _, _) =>
      if httpOk retry then
        { result := .stream true, refreshes := 1, retries := 1 }
      else
        { result := .retryError retry, refreshes := 1, retries := 1 }
  else if httpOk first then
    { result := .stream false, refreshes := 0, retries := 0 }
  else
    { result := .chatError first, refreshes := 0, retries := 0 }

/-- C2: a 401 on the initial chat-stream fetch triggers exactly one
refresh and (when the refresh yields a token) exactly one retry; a
failing retry — including a second 401 — surfaces its error with the
totals still at one refresh and one retry, so no further refresh or
retry happens; and a non-401 first response triggers neither. -/
theorem c2_chatStream_single_retry (now : Nat) (store : Option UserMapping)
    (o : RefreshOutcome) (first retry : Nat) :
    ((chatStreamFlow now store o first retry).refreshes ≤ 1 ∧
      (chatStreamFlow now store o first retry).retries ≤ 1) ∧
    (first = 401 → (chatStreamFlow now store o first retry).refreshes = 1) ∧
    (first = 401 → ∀ tok s,
      refreshAccessToken now store o = (.ok tok, s) →
      (chatStreamFlow now store o first retry).retries = 1 ∧
      (httpOk retry = false →
        chatStreamFlow now store o first retry =
          { result := .retryError retry, refreshes := 1, retries := 1 })) ∧
    (first = 401 → ∀ e s,
      refreshAccessToken now store o = (.error e, s) →
      chatStreamFlow now store o first retry =
        { result := .authError e, refreshes := 1, retries := 0 }) ∧
    (first ≠ 401 →
      (chatStreamFlow now store o first retry).refreshes = 0 ∧
      (chatStreamFlow now store o first retry).retries = 0) := by
  by_cases h : first = 401
  · rcases hr : refreshAccessToken now store o with ⟨r, s⟩
    rcases r with e | tok
    · refine ⟨?_, ?_, ?_, ?_, ?_⟩ <;>
        simp_all [chatStreamFlow, hr]
    · by_cases hret : httpOk retry <;>
        refine ⟨?_, ?_, ?_, ?_, ?_⟩ <;>
        simp_all [chatStreamFlow, hr]
  · by_cases hok : httpOk first <;>
      refine ⟨?_, ?_, ?_, ?_, ?_⟩ <;>
      simp_all [chatStreamFlow]

/-! ### TokenStore and PairingManager -/

/-- Association-list lookup, modelling a Redis `GET` on a keyed
store. -/
def lookupA {α : Type} (k : String) : List (String × α) → Option α
  | [] => none
  | (k2, v) :: rest => if k2 = k then some v else lookupA k rest

/-- Association-list removal, modelling a Redis `DEL`. -/
def removeA {α : Type} (k : String) : List (String × α) → List (String × α)
  | [] => []
  | (k2, v) :: rest =>
      if k2 = k then removeA k rest else (k2, v) :: removeA k rest

/-- Association-list upsert, modelling a Redis `SETEX`. -/
def insertA {α : Type} (k : String) (v : α) (l : List (String × α)) :
    List (String × α) :=
  (k, v) :: removeA k l

/-- The Redis-backed `TokenStore` state: pairing tickets keyed by code
and user mappings keyed by mentra user id. -/
structure BridgeStore where
  pairings : List (String × PairingRequest)
  users : List (String × UserMapping)
deriving Repr, DecidableEq

/-- `TokenStore.consumePairingCode` run to completion with no
interleaving: `GET` the code, and if present `DEL` it; returns the
ticket found (if any) and the store afterwards. -/
def consumePairingCode (st : BridgeStore) (code : String) :
    Option PairingRequest × BridgeStore :=
  match lookupA code st.pairings with
  | none => (none, st)
  | some req => (some req, { st with pairings := removeA code st.pairings })

/-- The backend's response to `POST /api/auth/login`. -/
inductive LoginOutcome where
  | ok (accessToken refreshToken : String) : LoginOutcome
  | rejected (detail : Option String) (status : Nat) : LoginOutcome
deriving Repr, DecidableEq

/-- The error field of `handlePairRequest`'s reply. -/
inductive PairError where
  /-- `"Invalid or expired pairing code"` -/
  | invalidCode : PairError
  /-- the backend's `detail`, or `"Authentication failed (status)"` -/
  | authFailed (detail : Option String) (status : Nat) : PairError
deriving Repr, DecidableEq

/-- The `{ success, error? }` reply of `PairingManager.handlePairRequest`. -/
structure PairResult where
  success : Bool
  error : Option PairError
deriving Repr, DecidableEq

/-- `PairingManager.handlePairRequest`: consume the pairing code
first; if absent report the invalid-code error; then attempt the
backend login, report its rejection verbatim, and only on login
success write the user mapping (conversation id unset, 60-minute
access-token expiry). -/
def handlePairRequest (now : Nat) (st : BridgeStore) (code : String)
    (login : LoginOutcome) : PairResult × BridgeStore :=
  match consumePairingCode st code with
  | (none, st1) => ({ success := false, error := some .invalidCode }, st1)
  | (some req, st1) =>
    match login with
    | .rejected d s =>
        ({ success := false, error := some (.authFailed d s) }, st1)
    | .ok access refreshTok =>
        ({ success := true, error := none },
          { st1 with
              users := insertA req.mentraUserId
                { memchatAccessToken := access
                  memchatRefreshToken := refreshTok
                  accessTokenExpiresAt := now + ACCESS_TOKEN_LIFETIME_MS
                  conversationId := none } st1.users })

/-! ### The consumePairingCode interleaving machine

`consumePairingCode` issues its Redis `GET` and `DEL` as two separate
awaited commands, so in the cooperative scheduling model another
in-flight call to the same code can run between them. The machine
below makes the two suspension-separated steps explicit for two
concurrent callers on one code. -/

/-- Program counter of one in-flight `consumePairingCode` call: about
to issue the `GET`, about to issue the `DEL`, or returned. -/
inductive ConsumePc where
  | atGet : ConsumePc
  | atDel : ConsumePc
  | returned : ConsumePc
deriving Repr, DecidableEq

/-- One in-flight `consumePairingCode` caller: its program counter and
the value its `GET` read (meaningful once past the `GET`). -/
structure Consumer where
  pc : ConsumePc
  raw : Option PairingRequest
deriving Repr, DecidableEq

/-- The shared Redis value for one code plus the two concurrent
callers. -/
structure RaceState where
  ticket : Option PairingRequest
  a : Consumer
  b : Consumer
deriving Repr, DecidableEq

/-- Advance one caller by one atomic Redis command, following
`consumePairingCode`: the `GET` reads the value and returns early when
it is absent; the `DEL` removes the value and returns what the `GET`
read. -/
def stepConsumer (ticket : Option PairingRequest) (c : Consumer) :
    Option PairingRequest × Consumer :=
  match c.pc with
  | .atGet =>
    match ticket with
    | none => (none, { pc := .returned, raw := none })
    | some req => (some req, { pc := .atDel, raw := some req })
  | .atDel => (none, { c with pc := .returned })
  | .returned => (ticket, c)

/-- Run one scheduler step: `true` advances caller `a`, `false`
advances caller `b`. -/
def raceStep (s : RaceState) (who : Bool) : RaceState :=
  if who then
    { s with ticket := (stepConsumer s.ticket s.a).1
             a := (stepConsumer s.ticket s.a).2 }
  else
    { s with ticket := (stepConsumer s.ticket s.b).1
             b := (stepConsumer s.ticket s.b).2 }

/-- Run a whole interleaving schedule. -/
def raceRun (sched : List Bool) (s : RaceState) : RaceState :=
  sched.foldl raceStep s

/-- A caller succeeded when it returned a ticket (redemption then
proceeds to the backend login). -/
def consumeSucceeded (c : Consumer) : Bool :=
  c.pc = ConsumePc.returned && c.raw.isSome

/-- A concrete stored pairing ticket. -/
def req0 : PairingRequest := { mentraUserId := "user-1", createdAt := 0 }

/-- Two concurrent redemptions of the same stored code, both about to
issue their `GET`. -/
def raceInit : RaceState :=
  { ticket := some req0
    a := { pc := .atGet, raw := none }
    b := { pc := .atGet, raw := none } }

/-- C3: under the interleaving `GET(a), GET(b), DEL(a), DEL(b)` both
concurrent redemptions of the same code return the ticket, so
redemption is not atomic and two concurrent redemptions can both
succeed, contradicting the claimed single-use atomicity. -/
theorem c3_concurrent_double_redeem :
    consumeSucceeded (raceRun [true, false, true, false] raceInit).a = true ∧
    consumeSucceeded (raceRun [true, false, true, false] raceInit).b = true ∧
    (raceRun [true, false, true, false] raceInit).a.raw = some req0 ∧
    (raceRun [true, false, true, false] raceInit).b.raw = some req0 := by
  decide

/-- `GET` after `DEL` of the same key finds nothing. -/
theorem lookupA_removeA {α : Type} (k : String) (l : List (String × α)) :
    lookupA k (removeA k l) = none := by
  induction l with
  | nil => simp [lookupA, removeA]
  | cons hd tl ih =>
    rcases hd with ⟨k2, v⟩
    by_cases h : k2 = k <;> simp [lookupA, removeA, h, ih]

/-- C10: when a pairing code is redeemed but the backend login is
rejected, the ticket was already deleted before the login ran and no
user mapping is written; a later pairing attempt with the same code,
even with correct credentials, gets the invalid-or-expired-code
error. -/
theorem c10_ticket_burned_on_failed_login (now now2 : Nat)
    (st : BridgeStore) (code : String) (req : PairingRequest)
    (d : Option String) (s : Nat) (login2 : LoginOutcome)
    (h : lookupA code st.pairings = some req) :
    (handlePairRequest now st code (.rejected d s)).1 =
      { success := false, error := some (.authFailed d s) } ∧
    lookupA code
      (handlePairRequest now st code (.rejected d s)).2.pairings = none ∧
    (handlePairRequest now st code (.rejected d s)).2.users = st.users ∧
    (handlePairRequest now2
        (handlePairRequest now st code (.rejected d s)).2 code login2).1 =
      { success := false, error := some PairError.invalidCode } ∧
    (handlePairRequest now2
        (handlePairRequest now st code (.rejected d s)).2 code login2).2 =
      (handlePairRequest now st code (.rejected d s)).2 := by
  simp [handlePairRequest, consumePairingCode, h, lookupA_removeA]

/-- A concrete store holding one pairing ticket. -/
def storeA : BridgeStore :=
  { pairings := [("123456", req0)], users := [] }

/-- Witness for C10 at a concrete store, code and rejected login. -/
theorem c10_ticket_burned_witness :
    lookupA "123456" storeA.pairings = some req0 ∧
    ((handlePairRequest 5 storeA "123456"
        (.rejected (some "bad password") 401)).1 =
      { success := false
        error := some (.authFailed (some "bad password") 401) } ∧
    lookupA "123456"
      (handlePairRequest 5 storeA "123456"
        (.rejected (some "bad password") 401)).2.pairings = none ∧
    (handlePairRequest 5 storeA "123456"
        (.rejected (some "bad password") 401)).2.users = storeA.users ∧
    (handlePairRequest 9
        (handlePairRequest 5 storeA "123456"
          (.rejected (some "bad password") 401)).2 "123456"
        (.ok "at" "rt")).1 =
      { success := false, error := some PairError.invalidCode } ∧
    (handlePairRequest 9
        (handlePairRequest 5 storeA "123456"
          (.rejected (some "bad password") 401)).2 "123456"
        (.ok "at" "rt")).2 =
      (handlePairRequest 5 storeA "123456"
        (.rejected (some "bad password") 401)).2) :=
  ⟨by decide,
    c10_ticket_burned_on_failed_login 5 9 storeA "123456" req0
      (some "bad password") 401 (.ok "at" "rt") (by decide)⟩

/-! ### ChatPipeline turn queueing -/

/-- The per-session state machine values (`SessionState` in
`types.ts`). -/
inductive SessionState where
  | unpaired : SessionState
  | pairing : SessionState
  | connected : SessionState
  | listening : SessionState
  | thinking : SessionState
  | speaking : SessionState
deriving Repr, DecidableEq

/-- The observable events that drive `ChatPipeline` turn queueing: a
final transcription arriving, or the in-flight turn's stream draining
to the end of `processMessage`. -/
inductive PipeEvent where
  | finalTranscript (text : String) : PipeEvent
  | streamComplete : PipeEvent
deriving Repr, DecidableEq

/-- The queueing-relevant state of `ChatPipeline`: the `processing`
flag, the single `pendingTranscript` slot, and the log of messages
handed to `chatStream`, in order. -/
structure PipeState where
  processing : Bool
  pendingTranscript : Option String
  calls : List String
deriving Repr, DecidableEq

/-- One step of `ChatPipeline`. A final transcript while processing
only overwrites the pending slot (`this.pendingTranscript = text`);
while idle it starts `processMessage`, which synchronously sets
`processing` and issues the backend chat call. When a turn's stream
completes, `processMessage` clears `processing` and, if a transcript
is pending, dequeues it and recursively starts the next turn (with no
suspension point between clearing and re-setting `processing`). -/
def pipeStep (s : PipeState) : PipeEvent → PipeState
  | .finalTranscript t =>
    if s.processing then { s with pendingTranscript := some t }
    else { s with processing := true, calls := s.calls ++ [t] }
  | .streamComplete =>
    if s.processing then
      match s.pendingTranscript with
      | some p =>
          { processing := true, pendingTranscript := none
            calls := s.calls ++ [p] }
      | none => { s with processing := false }
    else s

/-- Run a sequence of pipeline events. -/
def pipeRun (evs : List PipeEvent) (s : PipeState) : PipeState :=
  evs.foldl pipeStep s

/-- The idle pipeline. -/
def pipeInit : PipeState :=
  { processing := false, pendingTranscript := none, calls := [] }

/-- C4: while a turn is processing, every final transcript overwrites
the single pending slot without issuing a call, so three final
transcripts in quick succession from idle produce exactly two backend
chat calls, the second carrying only the last queued transcript. -/
theorem c4_single_pending_slot (t1 t2 t3 : String) :
    (∀ s t, s.processing = true →
      pipeStep s (.finalTranscript t) =
        { s with pendingTranscript := some t } ∧
      (pipeStep s (.finalTranscript t)).calls = s.calls) ∧
    pipeRun [.finalTranscript t1, .finalTranscript t2, .finalTranscript t3,
        .streamComplete, .streamComplete] pipeInit =
      { processing := false, pendingTranscript := none
        calls := [t1, t3] } := by
  constructor
  · intro s t h
    constructor <;> simp [pipeStep, h]
  · simp [pipeRun, pipeInit, pipeStep]

/-! ### Dead refresh token and the session state -/

/-- What a final transcript leads to when `chatStream` begins and its
token acquisition fails: `processMessage` sets `thinking`, calls
`chatStream`, which calls `getAccessToken`; a thrown auth error
rejects the promise, and the `.catch` in `handleTranscription` sets
the state to `listening` and clears `processing`. On token success the
turn keeps going in `thinking`. -/
structure TurnAuthOutcome where
  state : SessionState
  store : Option UserMapping
  processing : Bool
  raised : Option AuthError
deriving Repr, DecidableEq

/-- How the session reacts once `chatStream`'s token acquisition has
resolved: a thrown auth error rejects the turn's promise and the
`.catch` in `handleTranscription` sets `listening` and clears
`processing`; a token lets the turn continue in `thinking`. -/
def afterTokenFetch (r : TokenResult) : TurnAuthOutcome :=
  match r.result with
  | .error e =>
      { state := .listening, store := r.store
        processing := false, raised := some e }
  | .ok _ =>
      { state := .thinking, store := r.store
        processing := true, raised := none }

/-- Model of `ChatPipeline.handleTranscription` for a final transcript
hitting the credential path of `chatStream`, up to the first streamed
event. -/
def handleFinalAuth (now : Nat) (store : Option UserMapping)
    (o : RefreshOutcome) : TurnAuthOutcome :=
  afterTokenFetch (getAccessToken now store o)

/-- A concrete credential record whose access token has expired. -/
def expiredMapping : UserMapping :=
  { memchatAccessToken := "at"
    memchatRefreshToken := "rt"
    accessTokenExpiresAt := 0
    conversationId := none }

/-- C5 counterexample: with an expired access token and a 401 on the
refresh, the credential record is deleted and the unauthenticated
error is raised — but the session ends up in `listening`, not
`pairing`: no transition back to pairing occurs. -/
theorem c5_no_pairing_fallback_counterexample :
    (handleFinalAuth 1000000 (some expiredMapping) .dead).store = none ∧
    (handleFinalAuth 1000000 (some expiredMapping) .dead).raised =
      some AuthError.refreshTokenDead ∧
    (handleFinalAuth 1000000 (some expiredMapping) .dead).state =
      SessionState.listening ∧
    (handleFinalAuth 1000000 (some expiredMapping) .dead).state ≠
      SessionState.pairing := by
  decide

/-- C5 as amended: when a refresh attempt receives a 401, the
credential record is deleted and the unauthenticated error is raised,
and the Chat Relay's catch handler leaves the session in `listening`
(idle), not `pairing`. -/
theorem c5_dead_refresh_deletes_record (now : Nat) (m : UserMapping)
    (h : ¬ now + TOKEN_REFRESH_BUFFER_MS < m.accessTokenExpiresAt) :
    handleFinalAuth now (some m) .dead =
      { state := .listening, store := none, processing := false
        raised := some AuthError.refreshTokenDead } := by
  have hlt : ¬ now < m.accessTokenExpiresAt - TOKEN_REFRESH_BUFFER_MS := by
    omega
  have hg : getAccessToken now (some m) .dead =
      { result := .error .refreshTokenDead, store := none, refreshes := 1 } := by
    simp [getAccessToken, hlt, refreshAccessToken]
  rw [handleFinalAuth, hg]
  rfl

/-- Witness for the amended C5 at a concrete expired record. -/
theorem c5_dead_refresh_witness :
    ¬ 1000000 + TOKEN_REFRESH_BUFFER_MS <
        expiredMapping.accessTokenExpiresAt ∧
    handleFinalAuth 1000000 (some expiredMapping) .dead =
      { state := .listening, store := none, processing := false
        raised := some AuthError.refreshTokenDead } :=
  ⟨by decide, c5_dead_refresh_deletes_record 1000000 expiredMapping (by decide)⟩

/-! ### VisionPipeline reconnect backoff -/

/-- `MAX_RECONNECT_ATTEMPTS` in VisionPipeline. -/
def MAX_RECONNECT_ATTEMPTS : Nat := 10

/-- `BASE_BACKOFF_MS` in VisionPipeline. -/
def BASE_BACKOFF_MS : Nat := 1000

/-- `MAX_BACKOFF_MS` in VisionPipeline. -/
def MAX_BACKOFF_MS : Nat := 30000

/-- The reconnect-relevant state of `VisionPipeline`. -/
structure VisionState where
  running : Bool
  reconnectAttempts : Nat
deriving Repr, DecidableEq

/-- `VisionPipeline.reconnect`: returns the new state and the delay it
schedules, if any. Not running, or the attempt counter at the maximum,
schedules nothing; otherwise the delay is
`min(BASE_BACKOFF_MS * 2 ** reconnectAttempts, MAX_BACKOFF_MS)` and
the counter is incremented. -/
def visionReconnect (s : VisionState) : VisionState × Option Nat :=
  if s.running = false then (s, none)
  else if MAX_RECONNECT_ATTEMPTS ≤ s.reconnectAttempts then (s, none)
  else
    ({ s with reconnectAttempts := s.reconnectAttempts + 1 },
      some (min (BASE_BACKOFF_MS * 2 ^ s.reconnectAttempts) MAX_BACKOFF_MS))

/-- `VisionPipeline.connect`, abstracted over whether the WebSocket
open succeeds: not running does nothing; a successful open resets the
attempt counter to zero; a failed open falls into `reconnect`. -/
def visionConnectStep (s : VisionState) (openOk : Bool) :
    VisionState × Option Nat :=
  if s.running = false then (s, none)
  else if openOk then ({ s with reconnectAttempts := 0 }, none)
  else visionReconnect s

/-- Iterate `visionReconnect` over `n` consecutive failures,
collecting the scheduled delay of each. -/
def visionFailures (s : VisionState) : Nat → List (Option Nat) × VisionState
  | 0 => ([], s)
  | n + 1 =>
      ((visionReconnect s).2 ::
          (visionFailures (visionReconnect s).1 n).1,
        (visionFailures (visionReconnect s).1 n).2)

/-- C6: while running with consecutive-failure counter `n < 10`, the
scheduled reconnect delay is `min (1000 * 2 ^ n) 30000` ms and the
counter increments; any successful open resets the counter to 0; at
the maximum attempt count nothing further is ever scheduled; and a
fresh run of 12 consecutive failures schedules exactly the ten delays
1s, 2s, 4s, 8s, 16s, 30s, 30s, 30s, 30s, 30s and then nothing. -/
theorem c6_vision_backoff :
    (∀ s : VisionState, s.running = true → s.reconnectAttempts < 10 →
      visionReconnect s =
        ({ s with reconnectAttempts := s.reconnectAttempts + 1 },
          some (min (1000 * 2 ^ s.reconnectAttempts) 30000))) ∧
    (∀ s : VisionState, s.running = true →
      visionConnectStep s true = ({ s with reconnectAttempts := 0 }, none)) ∧
    (∀ s : VisionState, 10 ≤ s.reconnectAttempts →
      visionReconnect s = (s, none)) ∧
    visionFailures { running := true, reconnectAttempts := 0 } 12 =
      ([some 1000, some 2000, some 4000, some 8000, some 16000,
          some 30000, some 30000, some 30000, some 30000, some 30000,
          none, none],
        { running := true, reconnectAttempts := 10 }) := by
  refine ⟨?_, ?_, ?_, by decide⟩
  · intro s h1 h2
    simp [visionReconnect, MAX_RECONNECT_ATTEMPTS, BASE_BACKOFF_MS,
      MAX_BACKOFF_MS, h1, Nat.not_le.mpr h2]
  · intro s h1
    simp [visionConnectStep, h1]
  · intro s h
    simp [visionReconnect, MAX_RECONNECT_ATTEMPTS, h]

/-! ### ChatPipeline event handling during one turn -/

/-- A streamed chat event (`ChatSSEEvent` in `types.ts`), as consumed
by the switch in `ChatPipeline.processMessage`. -/
inductive ChatSSEEvent where
  | token (text : String) : ChatSSEEvent
  | content (text : String) : ChatSSEEvent
  | progress (message : String) : ChatSSEEvent
  | done (conversationId : String) (historyTokens : Nat) : ChatSSEEvent
  | error (message : String) : ChatSSEEvent
deriving Repr, DecidableEq

/-- `HUD_THROTTLE_MS` in ChatPipeline. -/
def HUD_THROTTLE_MS : Nat := 200

/-- The data carried across the event loop of one turn: the
accumulated `fullResponse` buffer, the in-memory conversation id, the
conversation id persisted through `updateConversationId`, and the HUD
throttle timestamp. -/
structure TurnCore where
  fullResponse : String
  conversationId : Option String
  storeConversationId : Option String
  lastHudUpdate : Nat
deriving Repr, DecidableEq

/-- One iteration of the `for await` switch in `processMessage`. Each
event arrives at an absolute time (for the HUD throttle). `token`
appends to the buffer; `content` replaces it outright; `progress`
touches only the dashboard; `done` records and persists the
conversation id; `error` changes nothing here (it only shows a
card). -/
def coreStep (c : TurnCore) : Nat × ChatSSEEvent → TurnCore
  | (now, .token t) =>
      { c with
          fullResponse := c.fullResponse ++ t
          lastHudUpdate :=
            if HUD_THROTTLE_MS < now - c.lastHudUpdate then now
            else c.lastHudUpdate }
  | (_, .content t) => { c with fullResponse := t }
  | (_, .progress _) => c
  | (_, .done cid _) =>
      { c with conversationId := some cid, storeConversationId := some cid }
  | (_, .error _) => c

/-- Everything `processMessage` writes to the device surfaces. -/
inductive Output where
  | textWall (text : String) : Output
  | referenceCard (title body : String) : Output
  | dashboardWrite (text : String) : Output
  | speak (text : String) : Output
  | stateChange (s : SessionState) : Output
deriving Repr, DecidableEq

/-- The device output each switch iteration produces: `token` updates
the HUD when unthrottled, `progress` writes the status line, `error`
shows the error card, the rest write nothing. -/
def eventOutputs (c : TurnCore) : Nat × ChatSSEEvent → List Output
  | (now, .token t) =>
      if HUD_THROTTLE_MS < now - c.lastHudUpdate then
        [.textWall (c.fullResponse ++ t)]
      else []
  | (_, .content _) => []
  | (_, .progress m) => [.dashboardWrite m]
  | (_, .done _ _) => []
  | (_, .error m) => [.referenceCard "Error" m]

/-- Run the event loop over a list of timed events, collecting the
final core state and the outputs in order. -/
def runEvents (c : TurnCore) : List (Nat × ChatSSEEvent) → TurnCore × List Output
  | [] => (c, [])
  | e :: es =>
      ((runEvents (coreStep c e) es).1,
        eventOutputs c e ++ (runEvents (coreStep c e) es).2)

/-- The initial core state of one turn. -/
def turnInit (cid storeCid : Option String) : TurnCore :=
  { fullResponse := "", conversationId := cid
    storeConversationId := storeCid, lastHudUpdate := 0 }

/-- What one whole `processMessage` turn produces (ignoring the
pending-transcript dequeue, which `pipeStep` models). -/
structure TurnResult where
  core : TurnCore
  outputs : List Output
  processing : Bool
  finalState : SessionState
deriving Repr, DecidableEq

/-- `ChatPipeline.processMessage` over a fully drained stream: the
prologue (thinking state, status line, user card), the event loop,
then the epilogue — when the buffer is nonempty it is shown as the
final card and spoken with a `speaking` transition — and finally
`processing` is cleared and the state returns to `listening`. -/
def processMessage (userText : String) (cid storeCid : Option String)
    (events : List (Nat × ChatSSEEvent)) : TurnResult :=
  { core := (runEvents (turnInit cid storeCid) events).1
    outputs :=
      [.stateChange .thinking, .dashboardWrite "Thinking...",
        .referenceCard "You" userText] ++
      (runEvents (turnInit cid storeCid) events).2 ++
      (if (runEvents (turnInit cid storeCid) events).1.fullResponse = ""
        then []
        else
          [.referenceCard "Memchat"
              (runEvents (turnInit cid storeCid) events).1.fullResponse,
            .stateChange .speaking, .dashboardWrite "Speaking",
            .speak (runEvents (turnInit cid storeCid) events).1.fullResponse]) ++
      [.stateChange .listening, .dashboardWrite "Listening"]
    processing := false
    finalState := .listening }

/-- C7: `token` events append to the response buffer and `content`
events replace it outright, so the stream `token "Hel"`, `token "lo"`,
`content "Hello there"` ends the turn with exactly "Hello there" as
the displayed and spoken final text. -/
theorem c7_content_overrides_tokens (u : String) (cid scid : Option String)
    (n1 n2 n3 : Nat) :
    (∀ (c : TurnCore) (now : Nat) (t : String),
      (coreStep c (now, .token t)).fullResponse = c.fullResponse ++ t) ∧
    (∀ (c : TurnCore) (now : Nat) (t : String),
      (coreStep c (now, .content t)).fullResponse = t) ∧
    (processMessage u cid scid
        [(n1, .token "Hel"), (n2, .token "lo"),
          (n3, .content "Hello there")]).core.fullResponse =
      "Hello there" ∧
    Output.referenceCard "Memchat" "Hello there" ∈
      (processMessage u cid scid
        [(n1, .token "Hel"), (n2, .token "lo"),
          (n3, .content "Hello there")]).outputs ∧
    Output.speak "Hello there" ∈
      (processMessage u cid scid
        [(n1, .token "Hel"), (n2, .token "lo"),
          (n3, .content "Hello there")]).outputs := by
  refine ⟨fun c now t => rfl, fun c now t => rfl, ?_, ?_, ?_⟩ <;>
    simp [processMessage, runEvents, coreStep, eventOutputs, turnInit]

/-- The event loop's final core over concatenated streams composes. -/
theorem runEvents_fst_append (c : TurnCore)
    (xs ys : List (Nat × ChatSSEEvent)) :
    (runEvents c (xs ++ ys)).1 = (runEvents (runEvents c xs).1 ys).1 := by
  induction xs generalizing c with
  | nil => simp [runEvents]
  | cons e es ih => simp [runEvents, ih]

/-- The event loop's outputs over concatenated streams concatenate. -/
theorem runEvents_snd_append (c : TurnCore)
    (xs ys : List (Nat × ChatSSEEvent)) :
    (runEvents c (xs ++ ys)).2 =
      (runEvents c xs).2 ++ (runEvents (runEvents c xs).1 ys).2 := by
  induction xs generalizing c with
  | nil => simp [runEvents]
  | cons e es ih => simp [runEvents, ih]

/-- C9: a streamed `Error` event shows an error card but does not
abort the turn: the loop runs to completion (the turn's data is
exactly what it would be had the error event not occurred), the relay
ends the turn idle (`processing = false`) and the session ends in
`listening`, ready for the next turn. -/
theorem c9_error_event_does_not_abort (u : String)
    (cid scid : Option String) (pre post : List (Nat × ChatSSEEvent))
    (now : Nat) (m : String) :
    (processMessage u cid scid
        (pre ++ (now, .error m) :: post)).finalState = .listening ∧
    (processMessage u cid scid
        (pre ++ (now, .error m) :: post)).processing = false ∧
    Output.referenceCard "Error" m ∈
      (processMessage u cid scid (pre ++ (now, .error m) :: post)).outputs ∧
    (processMessage u cid scid (pre ++ (now, .error m) :: post)).core =
      (processMessage u cid scid (pre ++ post)).core := by
  refine ⟨rfl, rfl, ?_, ?_⟩
  · simp [processMessage, runEvents_snd_append, runEvents, eventOutputs]
  · simp [processMessage, runEvents_fst_append, runEvents, coreStep]

/-! ### parseSSEStream -/

/-- ASCII whitespace as removed by `String.prototype.trim`. -/
def isJsSpace (ch : Char) : Bool :=
  ch = ' ' || ch = '\t' || ch = '\n' || ch = '\r' || ch = '\x0b' || ch = '\x0c'

/-- `line.trim()`: strip whitespace from both ends. -/
def trimChars (l : List Char) : List Char :=
  ((l.dropWhile isJsSpace).reverse.dropWhile isJsSpace).reverse

/-- `s.startsWith(p)` over character lists (first argument is the
sought head). -/
def listStartsWith : List Char → List Char → Bool
  | [], _ => true
  | _ :: _, [] => false
  | p :: ps, c :: cs => p = c && listStartsWith ps cs

/-- The characters of `"data: "`. -/
def dataHead : List Char := ['d', 'a', 't', 'a', ':', ' ']

/-- The characters of the `"[DONE]"` sentinel. -/
def doneChars : List Char := ['[', 'D', 'O', 'N', 'E', ']']

/-- `buffer.split("\n")`: split a character list on newlines, keeping
empty segments; never returns an empty list. -/
def splitOnNl : List Char → List (List Char)
  | [] => [[]]
  | ch :: rest =>
      if ch = '\n' then [] :: splitOnNl rest
      else
        match splitOnNl rest with
        | [] => [[ch]]
        | l :: ls => (ch :: l) :: ls

/-- A line the parser loop does not skip: nonempty after trimming and
starting with `"data: "`. -/
def isDataLine (l : List Char) : Bool :=
  !(trimChars l).isEmpty && listStartsWith dataHead (trimChars l)

/-- A data line whose payload (`trimmed.slice(6)`) is the `[DONE]`
sentinel. -/
def isDoneLine (l : List Char) : Bool :=
  isDataLine l && ((trimChars l).drop 6 == doneChars)

/-- The `for (const line of lines)` loop body of `parseSSEStream`,
parameterised by `JSON.parse` (abstracted as a partial parse
function): skip blank and non-data lines, return on the `[DONE]`
sentinel, yield parsed events, and silently drop lines that fail to
parse. Returns the yielded events in order and whether the sentinel
terminated the generator. -/
def processLines (parse : List Char → Option ChatSSEEvent) :
    List (List Char) → List ChatSSEEvent × Bool
  | [] => ([], false)
  | l :: ls =>
      if isDataLine l then
        if isDoneLine l then ([], true)
        else
          match parse ((trimChars l).drop 6) with
          | some e =>
              (e :: (processLines parse ls).1, (processLines parse ls).2)
          | none => processLines parse ls
      else processLines parse ls

/-- The generator state of `parseSSEStream` between two network reads:
the carry buffer and whether the generator has returned. -/
structure SSEState where
  buffer : List Char
  finished : Bool
deriving Repr, DecidableEq

/-- One `reader.read()` iteration of `parseSSEStream`: append the new
chunk to the buffer, split on newlines, keep the final segment
(`lines.pop()`) as the new buffer, and run the line loop over the
complete lines. A finished generator consumes nothing and yields
nothing. -/
def sseRead (parse : List Char → Option ChatSSEEvent) (st : SSEState)
    (chunk : List Char) : List ChatSSEEvent × SSEState :=
  if st.finished then ([], st)
  else
    ((processLines parse (splitOnNl (st.buffer ++ chunk)).dropLast).1,
      { buffer := (splitOnNl (st.buffer ++ chunk)).getLastD []
        finished :=
          (processLines parse (splitOnNl (st.buffer ++ chunk)).dropLast).2 })

/-- The event a single complete line contributes: its parsed payload
when it is a data line other than the sentinel, nothing otherwise. -/
def lineEvent (parse : List Char → Option ChatSSEEvent) (l : List Char) :
    Option ChatSSEEvent :=
  if isDataLine l && !isDoneLine l then parse ((trimChars l).drop 6)
  else none

/-- `splitOnNl` never produces the empty list. -/
theorem splitOnNl_ne_nil (s : List Char) : splitOnNl s ≠ [] := by
  cases s with
  | nil => simp [splitOnNl]
  | cons ch rest =>
    by_cases h : ch = '\n'
    · simp [splitOnNl, h]
    · cases hsp : splitOnNl rest with
      | nil => simp [splitOnNl, h, hsp]
      | cons l ls => simp [splitOnNl, h, hsp]

/-- `getLastD` ignores its default on nonempty lists. -/
theorem getLastD_irrel {α : Type} (l : List α) (h : l ≠ []) (a b : α) :
    l.getLastD a = l.getLastD b := by
  cases l with
  | nil => exact absurd rfl h
  | cons x xs => rw [List.getLastD_cons, List.getLastD_cons]

/-- A one-segment split means the input had no newline. -/
theorem splitOnNl_singleton (s x : List Char) (h : splitOnNl s = [x]) :
    x = s ∧ '\n' ∉ s := by
  induction s generalizing x with
  | nil =>
    simp [splitOnNl] at h
    simp [h]
  | cons ch rest ih =>
    by_cases hch : ch = '\n'
    · subst hch
      simp [splitOnNl] at h
      exact absurd h.2 (splitOnNl_ne_nil rest)
    · cases hsp : splitOnNl rest with
      | nil => exact absurd hsp (splitOnNl_ne_nil rest)
      | cons l ls =>
        simp [splitOnNl, hch, hsp] at h
        rcases h with ⟨h1, h2⟩
        subst h2
        rcases ih l hsp with ⟨hl, hn⟩
        subst hl
        subst h1
        refine ⟨rfl, ?_⟩
        intro hmem
        rcases List.mem_cons.mp hmem with hh | hh
        · exact hch hh.symm
        · exact hn hh

/-- A split with at least two segments means the input contains a
newline. -/
theorem mem_nl_of_split_two (s : List Char)
    (h : 2 ≤ (splitOnNl s).length) : '\n' ∈ s := by
  induction s with
  | nil => simp [splitOnNl] at h
  | cons ch rest ih =>
    by_cases hch : ch = '\n'
    · simp [hch]
    · cases hsp : splitOnNl rest with
      | nil => exact absurd hsp (splitOnNl_ne_nil rest)
      | cons l ls =>
        simp [splitOnNl, hch, hsp] at h
        have : '\n' ∈ rest := by
          apply ih
          rw [hsp]
          simpa using h
        simp [this]

/-- The last segment of the newline split is exactly the suffix after
the last newline: it contains no newline, and the input is either that
segment alone or some prefix, a newline, then that segment. -/
theorem splitOnNl_getLastD (s : List Char) :
    '\n' ∉ (splitOnNl s).getLastD [] ∧
    ((splitOnNl s).getLastD [] = s ∨
      ∃ pre, s = pre ++ '\n' :: (splitOnNl s).getLastD []) := by
  induction s with
  | nil => simp [splitOnNl]
  | cons ch rest ih =>
    by_cases hch : ch = '\n'
    · subst hch
      have hsp2 : splitOnNl ('\n' :: rest) = [] :: splitOnNl rest := by
        simp [splitOnNl]
      have hb : (splitOnNl ('\n' :: rest)).getLastD [] =
          (splitOnNl rest).getLastD [] := by
        rw [hsp2, List.getLastD_cons]
      rw [hb]
      refine ⟨ih.1, Or.inr ?_⟩
      rcases ih.2 with heq | ⟨pre, hp⟩
      · exact ⟨[], by rw [heq, List.nil_append]⟩
      · exact ⟨'\n' :: pre, by rw [List.cons_append, ← hp]⟩
    · cases hsp : splitOnNl rest with
      | nil => exact absurd hsp (splitOnNl_ne_nil rest)
      | cons l ls =>
        have hstep : splitOnNl (ch :: rest) = (ch :: l) :: ls := by
          simp [splitOnNl, hch, hsp]
        cases ls with
        | nil =>
          rcases splitOnNl_singleton rest l hsp with ⟨hl, hn⟩
          have hlast : (splitOnNl (ch :: rest)).getLastD [] = ch :: rest := by
            rw [hstep, hl]
            rfl
          rw [hlast]
          refine ⟨?_, Or.inl rfl⟩
          intro hmem
          rcases List.mem_cons.mp hmem with hh | hh
          · exact hch hh.symm
          · exact hn hh
        | cons y ys =>
          have hb : (splitOnNl (ch :: rest)).getLastD [] =
              (splitOnNl rest).getLastD [] := by
            rw [hstep, hsp]
            simp only [List.getLastD_cons]
          rw [hb]
          refine ⟨ih.1, Or.inr ?_⟩
          rcases ih.2 with heq | ⟨pre, hp⟩
          · exfalso
            have hmem : '\n' ∈ rest := by
              apply mem_nl_of_split_two
              rw [hsp]
              simp
            rw [← heq] at hmem
            exact ih.1 hmem
          · exact ⟨ch :: pre, by rw [List.cons_append, ← hp]⟩

/-- The line loop yields, in input order, the parsed payload of every
data line strictly before the first `[DONE]` sentinel, dropping lines
that fail to parse, and reports whether a sentinel occurred. -/
theorem processLines_eq (parse : List Char → Option ChatSSEEvent)
    (ls : List (List Char)) :
    processLines parse ls =
      ((ls.takeWhile (fun l => !isDoneLine l)).filterMap (lineEvent parse),
        ls.any isDoneLine) := by
  induction ls with
  | nil => simp [processLines]
  | cons l ls ih =>
    by_cases hdone : isDoneLine l
    · have hdata : isDataLine l := by
        have := hdone
        simp [isDoneLine] at this
        exact this.1
      simp [processLines, hdata, hdone, List.takeWhile_cons]
    · by_cases hdata : isDataLine l
      · cases hp : parse ((trimChars l).drop 6) with
        | some e =>
          simp [processLines, hdata, hdone, hp, ih, List.takeWhile_cons,
            lineEvent]
        | none =>
          simp [processLines, hdata, hdone, hp, ih, List.takeWhile_cons,
            lineEvent]
      · have hdone2 : isDoneLine l = false := by
          simp [isDoneLine, hdata]
        simp [processLines, hdata, hdone2, ih, List.takeWhile_cons,
          lineEvent]

/-- C8: one read step of the SSE parser (a) keeps exactly the bytes
after the last newline of buffer-plus-chunk as the new buffer, (b)
yields, in input order, the parsed payload of each complete
`data: `-prefixed line before any `[DONE]` sentinel, dropping
malformed lines without terminating, (c) records the sentinel so that
(d) a finished parser consumes and yields nothing ever after. -/
theorem c8_parseSSEStream_step (parse : List Char → Option ChatSSEEvent)
    (st : SSEState) (chunk : List Char) :
    (st.finished = true → sseRead parse st chunk = ([], st)) ∧
    (st.finished = false →
      ('\n' ∉ (sseRead parse st chunk).2.buffer ∧
        ((sseRead parse st chunk).2.buffer = st.buffer ++ chunk ∨
          ∃ pre, st.buffer ++ chunk =
            pre ++ '\n' :: (sseRead parse st chunk).2.buffer)) ∧
      (sseRead parse st chunk).1 =
        (((splitOnNl (st.buffer ++ chunk)).dropLast.takeWhile
            (fun l => !isDoneLine l)).filterMap (lineEvent parse)) ∧
      (sseRead parse st chunk).2.finished =
        (splitOnNl (st.buffer ++ chunk)).dropLast.any isDoneLine) := by
  constructor
  · intro h
    simp [sseRead, h]
  · intro h
    refine ⟨?_, ?_, ?_⟩
    · have := splitOnNl_getLastD (st.buffer ++ chunk)
      simpa [sseRead, h] using this
    · simp [sseRead, h, processLines_eq]
    · simp [sseRead, h, processLines_eq]
